import Mathlib

/-!
Verification of the shell-completion subsystem of probe-rs-cli
(src/cli/src/completions.rs): the chip/probe listers, the baseline
script generation dispatcher, and the dynamic-completion injector.

Strings are modelled as Lean `String`s (lists of characters); Rust's
byte-oriented operations on valid UTF-8 strings (`starts_with`,
`split('/')`, concatenation) agree with the character-level models used
here.  Machine integers (`u16` vendor/product ids) are `Nat`s, with the
`< 65536` representability bound carried as a hypothesis where it
matters.  The `impl Write` sink is modelled by a success/failure oracle
per write call; the in-memory `Cursor<Vec<u8>>` sinks that the
dispatcher actually passes never fail (`pureSink`).
-/

/-- Characters of a string; all the scanning machinery works on these. -/
abbrev Chars := List Char

/-- Model of Rust `str::starts_with` (byte-prefix test; on valid UTF-8 this
is exactly the character-prefix test): does `s` start with `p`? -/
def charsStartsWith : Chars → Chars → Bool
  | _, [] => true
  | [], _ :: _ => false
  | c :: cs, p :: ps => c == p && charsStartsWith cs ps

/-- `s.starts_with(p)` of the source, on `String`. -/
def strStartsWith (s p : String) : Bool :=
  charsStartsWith s.data p.data

/-- The hexadecimal digit characters `0-9a-f` used by Rust's `{:x}`
formatting (lowercase). -/
def hexDigitChar (n : Nat) : Char :=
  if n < 10 then Char.ofNat (48 + n) else Char.ofNat (87 + n)

/-- Lowercase hexadecimal digits of `n`, most significant first: the digit
string Rust's `{:x}` prints.  `fuel` bounds the recursion depth; every use
passes `n + 1`, which dominates the number of digits. -/
def hexDigitsAux : Nat → Nat → Chars
  | 0, _ => []
  | f + 1, n =>
    if n < 16 then [hexDigitChar n]
    else hexDigitsAux f (n / 16) ++ [hexDigitChar (n % 16)]

/-- The digits Rust's `{:x}` prints for `n` (lowercase, no padding). -/
def hexDigits (n : Nat) : Chars := hexDigitsAux (n + 1) n

/-- Rust's `{:04x}` format: lowercase hexadecimal, zero-padded on the left
to at least four digits. -/
def format04x (n : Nat) : String :=
  ⟨List.replicate (4 - (hexDigits n).length) '0' ++ hexDigits n⟩

/-- Is `c` one of `0-9a-f`? (the character set `{:04x}` can produce). -/
def isLowerHexDigit (c : Char) : Bool :=
  (('0' ≤ c && c ≤ '9') || ('a' ≤ c && c ≤ 'f'))

/-- One chip family of the catalog, as used by `list_chips`: only the
variant names are read (`family.variants()`, `variant.name`). -/
structure ChipFamily where
  variants : List String

/-- All variant names in catalog-enumeration order: every family in order,
then every variant within the family, exactly as the two nested `for`
loops of `list_chips` visit them. -/
def catalogNames : List ChipFamily → List String
  | [] => []
  | fam :: fams => fam.variants ++ catalogNames fams

/-- One probe descriptor as `list_probes` reads it (`DebugProbeInfo`):
`vendor_id`/`product_id` are `u16` (here `Nat` with a `< 65536` bound
where needed), `probe_type` is the `Debug` rendering of the probe-type
enum (e.g. `"StLink"`). -/
structure DebugProbeInfo where
  vendor_id : Nat
  product_id : Nat
  serial_number : Option String
  identifier : String
  probe_type : String

/-- The errors the listers can surface (`OperationError`).  The source
constructs `FailedToReadFamilies` (chip catalog unreadable) and, through
the `?` on `writeln!`, an i/o error from the output sink.
`ProbeEnumerationError` is Modelled from the spec: the spec's error list
names it for a failed device enumeration, but `Probe::list_all()` as
called in the source returns a plain `Vec` with no error channel, so no
code path of the source ever constructs it. -/
inductive OperationError where
  | FailedToReadFamilies
  | IOError
  | ProbeEnumerationError
deriving DecidableEq

/-- An `impl Write` sink: `ok n` says whether the `n`-th `writeln!` call
on it succeeds.  The written text on success is tracked by the callers. -/
structure Sink where
  ok : Nat → Bool

/-- The in-memory `Cursor<Vec<u8>>` sink the dispatcher passes: writes to
it never fail. -/
def pureSink : Sink := ⟨fun _ => true⟩

/-- The inner loops of `list_chips`: the variants of one family, filtered
by `starts_with`, each matching name written as one line.  `i` counts the
write calls made so far (for the sink oracle); the result carries the
final count and the lines written.  On a failed write the call aborts with
the sink's error (text already written to the real sink is not modelled:
no claim reads partial output). -/
def list_chips_variants (s : Sink) (p : String) : Nat → List String → Except OperationError (Nat × List String)
  | i, [] => .ok (i, [])
  | i, v :: vs =>
    if strStartsWith v p then
      if s.ok i then
        match list_chips_variants s p (i + 1) vs with
        | .ok (j, ls) => .ok (j, (v ++ "\n") :: ls)
        | .error e => .error e
      else .error .IOError
    else list_chips_variants s p i vs

/-- The outer loop of `list_chips` over the families. -/
def list_chips_families (s : Sink) (p : String) : Nat → List ChipFamily → Except OperationError (Nat × List String)
  | i, [] => .ok (i, [])
  | i, fam :: fams =>
    match list_chips_variants s p i fam.variants with
    | .ok (j, ls) =>
      match list_chips_families s p j fams with
      | .ok (k, ms) => .ok (k, ls ++ ms)
      | .error e => .error e
    | .error e => .error e

/-- `list_chips` of the source: `families()` (here: its result, passed in)
with its error mapped to `FailedToReadFamilies`, then the nested loops
writing every variant name that starts with the given text. -/
def list_chips (famResult : Except Unit (List ChipFamily)) (s : Sink) (starts_with : String) :
    Except OperationError (List String) :=
  match famResult with
  | .error _ => .error .FailedToReadFamilies
  | .ok fams => (list_chips_families s starts_with 0 fams).map (·.2)

/-- The line `list_probes` writes for one matching probe, without the
terminating newline: the format string
`"{vid:04x}\\:{pid:04x}{sn}B[{id} \\[{typ:?}\\] B]"` of the source, where
`sn` is `""` for no serial and `"\\:" ++ serial` otherwise. -/
def probe_line (pr : DebugProbeInfo) : String :=
  format04x pr.vendor_id ++ "\\:" ++ format04x pr.product_id ++
    (match pr.serial_number with
      | some v => "\\:" ++ v
      | none => "") ++
    "B[" ++ pr.identifier ++ " \\[" ++ pr.probe_type ++ "\\] B]"

/-- The loop of `list_probes` over the enumerated probes: each probe whose
`identifier` starts with the given text gets one line written. -/
def list_probes_loop (s : Sink) (p : String) : Nat → List DebugProbeInfo → Except OperationError (Nat × List String)
  | i, [] => .ok (i, [])
  | i, pr :: prs =>
    if strStartsWith pr.identifier p then
      if s.ok i then
        match list_probes_loop s p (i + 1) prs with
        | .ok (j, ls) => .ok (j, (probe_line pr ++ "\n") :: ls)
        | .error e => .error e
      else .error .IOError
    else list_probes_loop s p i prs

/-- `list_probes` of the source: `Probe::list_all()` (here: the enumerated
descriptors, passed in — the call has no error channel), then the filtered
formatting loop. -/
def list_probes (probes : List DebugProbeInfo) (s : Sink) (starts_with : String) :
    Except OperationError (List String) :=
  (list_probes_loop s starts_with 0 probes).map (·.2)

/-- The shells `clap_complete::Shell` offers; the source supports only
`Bash` and `Zsh` and rejects the rest. -/
inductive Shell where
  | Bash
  | Elvish
  | Fish
  | PowerShell
  | Zsh
deriving DecidableEq

/-- The three completion request kinds (`CompleteKind`). -/
inductive CompleteKind where
  | GenerateScript
  | ProbeList
  | ChipList
deriving DecidableEq

/-- Strip the literal `pat` off the front of `s`: `some` of the rest when
`s` starts with `pat`, else `none`. -/
def stripLit : Chars → Chars → Option Chars
  | [], s => some s
  | _ :: _, [] => none
  | p :: ps, c :: cs => if c = p then stripLit ps cs else none

/-- The flag literal opening the Bash chip anchor: `--chip)` and the
newline the regex `\n` requires. -/
def bashChipHead : Chars := "--chip)\n".data

/-- The flag literal opening the Bash probe anchor. -/
def bashProbeHead : Chars := "--probe)\n".data

/-- The literal after the space run in both Bash anchors:
`COMPREPLY=($(` (regex `COMPREPLY=\(\$\(`, end of capture group 1). -/
def bashCompreplyOpen : Chars := "COMPREPLY=($(".data

/-- The text both Bash substitutions replace: `compgen -f`. -/
def compgenF : Chars := "compgen -f".data

/-- Capture group 2 of both Bash anchors: ` "${cur}"))`. -/
def bashTail : Chars := " \"$\x7bcur\x7d\"))".data

/-- The literal part of the Bash chip replacement
`${1}probe-rs-cli complete chip-list $2` (note the trailing space before
`$2`). -/
def bashChipRepl : Chars := "probe-rs-cli complete chip-list ".data

/-- The literal part of the Bash probe replacement. -/
def bashProbeRepl : Chars := "probe-rs-cli complete probe-list ".data

/-- Try to match one of the Bash anchor patterns of
`inject_dynamic_completions` at the start of `s`.  The regex is
`(FLAG\)\n *COMPREPLY=\(\$\()compgen \-f( "\$\{cur\}"\)\))` with `FLAG`
the flag literal: the flag head, a run of spaces (greedy, and the next
literal starts with a non-space, so the maximal run is the only choice),
the `COMPREPLY=($(' opener — together capture group 1 — then the
`compgen -f` call, then group 2, the ` "${cur}"))` tail.  The result is
`(group1, group2, rest-of-input)`. -/
def findBashAnchor (flagHead : Chars) (s : Chars) : Option (Chars × Chars × Chars) :=
  match stripLit flagHead s with
  | none => none
  | some r1 =>
    let sp := r1.takeWhile (· == ' ')
    match stripLit bashCompreplyOpen (r1.dropWhile (· == ' ')) with
    | none => none
    | some r2 =>
      match stripLit compgenF r2 with
      | none => none
      | some r3 =>
        match stripLit bashTail r3 with
        | none => none
        | some rest => some (flagHead ++ sp ++ bashCompreplyOpen, bashTail, rest)

/-- `replace_all` of the regex crate, for the anchor shapes this source
uses: scan left to right; at a match, emit group 1, the replacement's
literal part, group 2, and continue after the match (matches never
overlap); elsewhere copy the character.  `fuel` bounds the recursion;
every match consumes at least one character, so `fuel = s.length`
(what `replaceAllM` passes) always suffices. -/
def replaceAllFuel (find : Chars → Option (Chars × Chars × Chars)) (repl : Chars) :
    Nat → Chars → Chars
  | _, [] => []
  | 0, s => s
  | f + 1, c :: cs =>
    match find (c :: cs) with
    | some (g1, g2, rest) => g1 ++ repl ++ g2 ++ replaceAllFuel find repl f rest
    | none => c :: replaceAllFuel find repl f cs

/-- `re.replace_all(script, ...)` over a whole character list. -/
def replaceAllM (find : Chars → Option (Chars × Chars × Chars)) (repl : Chars) (s : Chars) : Chars :=
  replaceAllFuel find repl s.length s

/-- The Zsh anchor: the literal `_<name> "$@"` that the regex
`(_{name} "\$@")` matches (the interpolated `name` is matched literally;
this is exact whenever the invocation name has no regex metacharacters,
which holds for every path component the claims use).  Written here as
the character list of `"_" ++ name ++ " \"$@\""`. -/
def zshAnchor (name : String) : Chars := '_' :: name.data ++ " \"$@\"".data

/-- The Zsh probe placeholder pattern `(PROBE_SELECTOR: )` (note the
trailing space, which the replacement drops). -/
def zshProbeTag : Chars := "PROBE_SELECTOR: ".data

/-- Replacement for `zshProbeTag` (no capture reference, so the matched
trailing space is dropped). -/
def zshProbeTagRepl : Chars := "PROBE_SELECTOR:_probe-rs-cli_probe_list".data

/-- The Zsh chip placeholder pattern `(CHIP: )`. -/
def zshChipTag : Chars := "CHIP: ".data

/-- Replacement for `zshChipTag`. -/
def zshChipTagRepl : Chars := "CHIP:_probe-rs-cli_chips_list".data

/-- The two completion functions the Zsh injector inserts: the source's
raw `inject` string after regex replacement-string expansion (`$$` becomes
`$`; a `$` not followed by a capture reference, as in `$+functions`, stays
literal).  Ends with the raw string's trailing newline and twelve-space
indent. -/
def zshInjectText : String :=
  "(( $+functions[_probe-rs-cli_chips_list] )) ||\n_probe-rs-cli_chips_list() \x7b\n    array_of_lines=(\"$\x7b(@f)$(probe-rs-cli complete zsh chip-list \"\" )\x7d\")\n    _values \x27flags\x27 $array_of_lines\n\x7d\n(( $+functions[_probe-rs-cli_probe_list] )) ||\n_probe-rs-cli_probe_list() \x7b\n    array_of_lines=(\"$\x7b(@f)$(probe-rs-cli complete zsh probe-list \"\" )\x7d\")\n    if [ $\x7b#array_of_lines[@]\x7d -eq 0 ]; then\n        _values \x27flags\x27 $array_of_lines\n    fi\n\x7d\n            "

/-- Matcher for a plain literal regex such as `(PROBE_SELECTOR: )` or the
Zsh anchor: the whole match is the literal, both side groups empty. -/
def litFind (pat : Chars) (s : Chars) : Option (Chars × Chars × Chars) :=
  match stripLit pat s with
  | some rest => some ([], [], rest)
  | none => none

/-- The Bash `--chip` anchor matcher. -/
def bashChipFind : Chars → Option (Chars × Chars × Chars) :=
  findBashAnchor bashChipHead

/-- The Bash `--probe` anchor matcher. -/
def bashProbeFind : Chars → Option (Chars × Chars × Chars) :=
  findBashAnchor bashProbeHead

/-- The first Bash `replace_all`: rewrite every `--chip` anchor. -/
def bashChipPass (s : Chars) : Chars := replaceAllM bashChipFind bashChipRepl s

/-- The second Bash `replace_all`: rewrite every `--probe` anchor. -/
def bashProbePass (s : Chars) : Chars := replaceAllM bashProbeFind bashProbeRepl s

/-- The whole Bash arm of `inject_dynamic_completions`: the chip
substitution, then the probe substitution on its result. -/
def inject_bash (s : Chars) : Chars := bashProbePass (bashChipPass s)

/-- The whole Zsh arm: insert the two completion functions before every
occurrence of the anchor `_<name> "$@"` (the replacement is the inject
text, a newline, then `$1`, the matched anchor itself), then rebind the
`PROBE_SELECTOR: ` and `CHIP: ` placeholders. -/
def inject_zsh (name : String) (script : Chars) : Chars :=
  let s1 := replaceAllM (litFind (zshAnchor name)) (zshInjectText.data ++ '\n' :: zshAnchor name) script
  let s2 := replaceAllM (litFind zshProbeTag) zshProbeTagRepl s1
  replaceAllM (litFind zshChipTag) zshChipTagRepl s2

/-- The errors `generate_completion` can surface: the explicit
`anyhow::bail!` for an unsupported shell, or a lister error propagated by
`?`. -/
inductive CliError where
  | UnsupportedShell
  | Op (e : OperationError)
deriving DecidableEq

/-- `inject_dynamic_completions` of the source.  The Rust function
mutates `script` and returns `Result<(), anyhow::Error>`; its only error
path is `regex::Regex::new` failing to compile, which cannot happen for
the fixed patterns modelled here, so the model always returns `.ok` with
the rewritten script.  Shells other than Zsh/Bash hit the `_ => {}` arm:
the script is returned unchanged. -/
def inject_dynamic_completions (shell : Shell) (name : String) (script : String) :
    Except CliError String :=
  match shell with
  | .Zsh => .ok ⟨inject_zsh name script.data⟩
  | .Bash => .ok ⟨inject_bash script.data⟩
  | _ => .ok script

/-- `cur` accumulates the current segment; on `/` it restarts.  The final
segment is what Rust's `argv0.split('/').last()` yields. -/
def lastSegment (cur : Chars) : Chars → Chars
  | [] => cur
  | c :: cs => if c = '/' then lastSegment [] cs else lastSegment (cur ++ [c]) cs

/-- The invocation name `generate_completion` recovers from `argv[0]`:
its last `/`-separated component
(`name.to_str().unwrap().split('/').last().unwrap()`; `split` always
yields at least one segment, so the `unwrap` cannot fail). -/
def lastComponent (s : String) : String := ⟨lastSegment [] s.data⟩

/-- `matches!(shell, Shell::Zsh | Shell::Bash)` of the source. -/
def supportedShell : Shell → Bool
  | .Zsh => true
  | .Bash => true
  | _ => false

/-- Everything `generate_completion` reads from outside its arguments,
passed explicitly: `argv[0]`; the baseline script `clap_complete`'s
`generate` produces for a shell and a bin name (an external black box —
the `Cli` command schema is fixed, its name set to `"probe-rs-cli"`); the
chip catalog read; the probe enumeration snapshot. -/
structure Env where
  argv0 : String
  gen : Shell → String → String
  famResult : Except Unit (List ChipFamily)
  probes : List DebugProbeInfo

/-- `generate_completion` of the source: reject a shell outside
{Zsh, Bash} at once (`anyhow::bail!`), else build the requested output —
the injected script for `GenerateScript` (bin name from `argv[0]`), or a
lister's lines — and print it.  The `.ok` payload is what `println!`
writes to standard output (the output plus a final newline); an `.error`
prints nothing on the success stream. -/
def generate_completion (env : Env) (shell : Shell) (kind : CompleteKind) (input : String) :
    Except CliError String :=
  if supportedShell shell then
    match kind with
    | .GenerateScript =>
      match inject_dynamic_completions shell (lastComponent env.argv0)
          (env.gen shell (lastComponent env.argv0)) with
      | .ok s => .ok (s ++ "\n")
      | .error e => .error e
    | .ProbeList =>
      match list_probes env.probes pureSink input with
      | .ok lines => .ok (String.join lines ++ "\n")
      | .error e => .error (.Op e)
    | .ChipList =>
      match list_chips env.famResult pureSink input with
      | .ok lines => .ok (String.join lines ++ "\n")
      | .error e => .error (.Op e)
  else .error .UnsupportedShell

/-- Modelled from the spec: the `complete` entry point's exit-code
convention — "Exit code 0 on success; non-zero on any failure" — applied
to `generate_completion`'s result by the CLI main (not among the source
files). -/
def exitCode : Except CliError String → Nat
  | .ok _ => 0
  | .error _ => 1

/-- Modelled from the spec: what the success stream (standard output)
carries — the `.ok` payload, and nothing for an error. -/
def successOutput : Except CliError String → Option String
  | .ok out => some out
  | .error _ => none

/-- Does `pat` occur (contiguously) anywhere in `s`? -/
def occursIn (pat s : Chars) : Bool :=
  s.tails.any (fun t => pat.isPrefixOf t)

/-- How an output of `replace_all` relates to its input, recording where
each byte came from: `copy` steps reproduce input characters verbatim,
and each `rewrite` step replaces exactly the `mid` part of one anchor
match (witnessed by the matcher itself succeeding there) with the
replacement text, keeping both capture groups. -/
inductive Framed (find : Chars → Option (Chars × Chars × Chars)) (mid repl : Chars) :
    Chars → Chars → Prop
  | nil : Framed find mid repl [] []
  | copy (c : Char) {s t : Chars} :
      Framed find mid repl s t → Framed find mid repl (c :: s) (c :: t)
  | rewrite (g1 g2 : Chars) {s t : Chars}
      (h : find (g1 ++ mid ++ g2 ++ s) = some (g1, g2, s)) :
      Framed find mid repl s t →
      Framed find mid repl (g1 ++ mid ++ g2 ++ s) (g1 ++ repl ++ g2 ++ t)

/-- A matcher is sound when a match decomposes its input around `mid` and
consumes at least one character. -/
def MatcherSound (find : Chars → Option (Chars × Chars × Chars)) (mid : Chars) : Prop :=
  ∀ s g1 g2 rest, find s = some (g1, g2, rest) →
    s = g1 ++ mid ++ g2 ++ rest ∧ rest.length < s.length

/-- Predicate for a script in which neither Bash anchor occurs: no suffix
of the script matches either matcher. -/
def NoBashAnchors (s : Chars) : Prop :=
  ∀ t ∈ s.tails, bashChipFind t = none ∧ bashProbeFind t = none

/-- Predicate for a script in which none of the three Zsh anchors for a
given invocation name occurs: no suffix of the script matches the
`_<name> "$@"` anchor or either placeholder pattern. -/
def NoZshAnchors (name : String) (s : Chars) : Prop :=
  ∀ t ∈ s.tails, litFind (zshAnchor name) t = none ∧
    litFind zshProbeTag t = none ∧ litFind zshChipTag t = none

/-- A minimal baseline fragment a Bash generator run can produce for the
`--chip` flag (the anchor block, verbatim). -/
def c5Baseline : String := "--chip)\n    COMPREPLY=($(compgen -f \"$\x7bcur\x7d\"))\n"

/-- What the injector turns `c5Baseline` into (note the fixed
`probe-rs-cli` name and the double space the replacement's trailing
space produces before `"$\x7bcur\x7d"`). -/
def c5Injected : String := "--chip)\n    COMPREPLY=($(probe-rs-cli complete chip-list  \"$\x7bcur\x7d\"))\n"


/-- A successful `stripLit` decomposes the input: the pattern followed by
the rest. -/
theorem stripLit_eq_some : ∀ (p s r : Chars), stripLit p s = some r → s = p ++ r := by
  intro p
  induction p with
  | nil =>
    intro s r h
    simp [stripLit] at h
    simp [h]
  | cons x xs ih =>
    intro s r h
    cases s with
    | nil => simp [stripLit] at h
    | cons c cs =>
      simp only [stripLit] at h
      by_cases hc : c = x
      · rw [if_pos hc] at h
        subst hc
        rw [ih cs r h]
        rfl
      · rw [if_neg hc] at h
        cases h

/-- A successful Bash anchor match decomposes the input as group 1, the
`compgen -f` call, group 2 and the rest, and always consumes at least one
character. -/
theorem findBashAnchor_sound (head : Chars) :
    ∀ (s g1 g2 rest : Chars), findBashAnchor head s = some (g1, g2, rest) →
      s = g1 ++ compgenF ++ g2 ++ rest ∧ rest.length < s.length := by
  intro s g1 g2 rest h
  cases h1 : stripLit head s with
  | none => simp [findBashAnchor, h1] at h
  | some r1 =>
    cases h2 : stripLit bashCompreplyOpen (r1.dropWhile (· == ' ')) with
    | none => simp [findBashAnchor, h1, h2] at h
    | some r2 =>
      cases h3 : stripLit compgenF r2 with
      | none => simp [findBashAnchor, h1, h2, h3] at h
      | some r3 =>
        cases h4 : stripLit bashTail r3 with
        | none => simp [findBashAnchor, h1, h2, h3, h4] at h
        | some rest0 =>
          simp only [findBashAnchor, h1, h2, h3, h4, Option.some.injEq, Prod.mk.injEq] at h
          obtain ⟨hg1, hg2, hrest⟩ := h
          subst hg1
          subst hg2
          subst hrest
          have e1 := stripLit_eq_some head s r1 h1
          have e2 := stripLit_eq_some _ _ _ h2
          have e3 := stripLit_eq_some _ _ _ h3
          have e4 := stripLit_eq_some _ _ _ h4
          have e0 : r1.takeWhile (· == ' ') ++ r1.dropWhile (· == ' ') = r1 :=
            List.takeWhile_append_dropWhile _ _
          rw [e2, e3, e4] at e0
          have hs : s = (head ++ r1.takeWhile (· == ' ') ++ bashCompreplyOpen) ++ compgenF ++ bashTail ++ rest0 := by
            rw [e1]
            conv_lhs => rw [← e0]
            simp [List.append_assoc]
          refine ⟨hs, ?_⟩
          rw [hs]
          simp only [List.length_append]
          have h10 : 0 < compgenF.length := by decide
          omega

/-- When no suffix of `s` matches, `replace_all` is the identity. -/
theorem replaceAllFuel_no_match (find : Chars → Option (Chars × Chars × Chars)) (repl : Chars) :
    ∀ (fuel : Nat) (s : Chars), (∀ t ∈ s.tails, find t = none) →
      replaceAllFuel find repl fuel s = s := by
  intro fuel
  induction fuel with
  | zero =>
    intro s h
    cases s with
    | nil => rfl
    | cons c cs => rfl
  | succ f ih =>
    intro s h
    cases s with
    | nil => rfl
    | cons c cs =>
      have hself : (c :: cs) ∈ (c :: cs).tails := by
        exact (List.mem_tails _ _).mpr (List.suffix_refl _)
      have hc : find (c :: cs) = none := h (c :: cs) hself
      have hsub : ∀ t ∈ cs.tails, find t = none := by
        intro t ht
        refine h t ((List.mem_tails _ _).mpr ?_)
        exact ((List.mem_tails _ _).mp ht).trans (List.suffix_cons c cs)
      simp [replaceAllFuel, hc, ih cs hsub]

/-- `replace_all` with a sound matcher only rewrites inside matches: its
output is `Framed` over its input. -/
theorem framed_replaceAllFuel (find : Chars → Option (Chars × Chars × Chars))
    (mid repl : Chars) (hsound : MatcherSound find mid) :
    ∀ (fuel : Nat) (s : Chars), s.length ≤ fuel →
      Framed find mid repl s (replaceAllFuel find repl fuel s) := by
  intro fuel
  induction fuel with
  | zero =>
    intro s hl
    have hnil : s = [] := List.length_eq_zero.mp (Nat.le_zero.mp hl)
    subst hnil
    exact Framed.nil
  | succ f ih =>
    intro s hl
    cases s with
    | nil => exact Framed.nil
    | cons c cs =>
      cases hf : find (c :: cs) with
      | none =>
        have hred : replaceAllFuel find repl (f + 1) (c :: cs) =
            c :: replaceAllFuel find repl f cs := by
          simp [replaceAllFuel, hf]
        rw [hred]
        refine Framed.copy c (ih cs ?_)
        simp only [List.length_cons] at hl
        omega
      | some trip =>
        obtain ⟨g1, g2, rest⟩ := trip
        obtain ⟨hdec, hlt⟩ := hsound _ _ _ _ hf
        have hred : replaceAllFuel find repl (f + 1) (c :: cs) =
            g1 ++ repl ++ g2 ++ replaceAllFuel find repl f rest := by
          simp [replaceAllFuel, hf]
        rw [hred]
        have hrl : rest.length ≤ f := by
          simp only [List.length_cons] at hlt hl
          omega
        have hf2 : find (g1 ++ mid ++ g2 ++ rest) = some (g1, g2, rest) := by
          rw [← hdec]
          exact hf
        rw [hdec]
        exact Framed.rewrite g1 g2 hf2 (ih rest hrl)

/-- The `--chip` anchor matcher is sound. -/
theorem bashChipFind_sound : MatcherSound bashChipFind compgenF := by
  intro s g1 g2 rest h
  exact findBashAnchor_sound bashChipHead s g1 g2 rest h

/-- The `--probe` anchor matcher is sound. -/
theorem bashProbeFind_sound : MatcherSound bashProbeFind compgenF := by
  intro s g1 g2 rest h
  exact findBashAnchor_sound bashProbeHead s g1 g2 rest h

/-- Writes to the in-memory sink always succeed. -/
theorem pureSink_ok (i : Nat) : pureSink.ok i = true := rfl

/-- With the never-failing in-memory sink, the inner chip loop emits
exactly the filtered variant names, one line each. -/
theorem list_chips_variants_pure (p : String) :
    ∀ (vs : List String) (i : Nat), ∃ j,
      list_chips_variants pureSink p i vs =
        .ok (j, (vs.filter (fun v => strStartsWith v p)).map (fun v => v ++ "\n")) := by
  intro vs
  induction vs with
  | nil => intro i; exact ⟨i, rfl⟩
  | cons v vs ih =>
    intro i
    cases hv : strStartsWith v p with
    | true =>
      obtain ⟨j, hj⟩ := ih (i + 1)
      refine ⟨j, ?_⟩
      simp [list_chips_variants, hv, pureSink_ok, hj, List.filter_cons]
    | false =>
      obtain ⟨j, hj⟩ := ih i
      refine ⟨j, ?_⟩
      simp [list_chips_variants, hv, hj, List.filter_cons]

/-- With the never-failing sink, `list_chips` over a readable catalog
emits exactly the variant names that start with the given text, in
catalog-enumeration order. -/
theorem list_chips_pure (fams : List ChipFamily) (p : String) :
    list_chips (.ok fams) pureSink p =
      .ok (((catalogNames fams).filter (fun v => strStartsWith v p)).map (fun v => v ++ "\n")) := by
  have hfam : ∀ (fs : List ChipFamily) (i : Nat), ∃ j,
      list_chips_families pureSink p i fs =
        .ok (j, ((catalogNames fs).filter (fun v => strStartsWith v p)).map (fun v => v ++ "\n")) := by
    intro fs
    induction fs with
    | nil => intro i; exact ⟨i, rfl⟩
    | cons fam fs ih =>
      intro i
      obtain ⟨j, hj⟩ := list_chips_variants_pure p fam.variants i
      obtain ⟨k, hk⟩ := ih j
      refine ⟨k, ?_⟩
      simp [list_chips_families, hj, hk, catalogNames, List.filter_append]
  obtain ⟨j, hj⟩ := hfam fams 0
  simp [list_chips, hj, Except.map]

/-- With the never-failing sink, `list_probes` emits exactly one line per
probe whose identifier starts with the given text, in enumeration
order. -/
theorem list_probes_pure (probes : List DebugProbeInfo) (p : String) :
    list_probes probes pureSink p =
      .ok ((probes.filter (fun d => strStartsWith d.identifier p)).map (fun d => probe_line d ++ "\n")) := by
  have hloop : ∀ (prs : List DebugProbeInfo) (i : Nat), ∃ j,
      list_probes_loop pureSink p i prs =
        .ok (j, (prs.filter (fun d => strStartsWith d.identifier p)).map (fun d => probe_line d ++ "\n")) := by
    intro prs
    induction prs with
    | nil => intro i; exact ⟨i, rfl⟩
    | cons pr prs ih =>
      intro i
      cases hv : strStartsWith pr.identifier p with
      | true =>
        obtain ⟨j, hj⟩ := ih (i + 1)
        refine ⟨j, ?_⟩
        simp [list_probes_loop, hv, pureSink_ok, hj, List.filter_cons]
      | false =>
        obtain ⟨j, hj⟩ := ih i
        refine ⟨j, ?_⟩
        simp [list_probes_loop, hv, hj, List.filter_cons]
  obtain ⟨j, hj⟩ := hloop probes 0
  simp [list_probes, hj, Except.map]

/-- The only error the probe loop can produce is the sink's write error:
in particular never `ProbeEnumerationError`. -/
theorem list_probes_loop_error (s : Sink) (p : String) :
    ∀ (prs : List DebugProbeInfo) (i : Nat) (e : OperationError),
      list_probes_loop s p i prs = .error e → e = .IOError := by
  intro prs
  induction prs with
  | nil => intro i e h; simp [list_probes_loop] at h
  | cons pr prs ih =>
    intro i e h
    cases hv : strStartsWith pr.identifier p with
    | true =>
      cases hok : s.ok i with
      | true =>
        cases hrec : list_probes_loop s p (i + 1) prs with
        | ok pair => simp [list_probes_loop, hv, hok, hrec] at h
        | error e2 =>
          have he2 := ih (i + 1) e2 hrec
          simp [list_probes_loop, hv, hok, hrec] at h
          rw [← h]
          exact he2
      | false =>
        simp [list_probes_loop, hv, hok] at h
        rw [← h]
    | false =>
      refine ih i e ?_
      simpa [list_probes_loop, hv] using h

/-- At most `k + 1` hex digits are printed for `n < 16 ^ (k + 1)`. -/
theorem hexDigitsAux_length_le :
    ∀ (f n k : Nat), n < 16 ^ (k + 1) → (hexDigitsAux f n).length ≤ k + 1 := by
  intro f
  induction f with
  | zero =>
    intro n k _
    simp [hexDigitsAux]
  | succ f ih =>
    intro n k hn
    by_cases h16 : n < 16
    · simp [hexDigitsAux, h16]
    · have hk : 1 ≤ k := by
        by_contra hk0
        have hk1 : k = 0 := by omega
        subst hk1
        simp at hn
        omega
      obtain ⟨k2, rfl⟩ : ∃ k2, k = k2 + 1 := ⟨k - 1, by omega⟩
      have hdiv : n / 16 < 16 ^ (k2 + 1) := by
        rw [Nat.div_lt_iff_lt_mul (by norm_num : 0 < 16)]
        calc n < 16 ^ (k2 + 1 + 1) := hn
          _ = 16 ^ (k2 + 1) * 16 := by ring
      have hrec := ih (n / 16) k2 hdiv
      simp only [hexDigitsAux, if_neg h16, List.length_append, List.length_cons,
        List.length_nil]
      omega

/-- Every character `hexDigitsAux` emits is a digit character for some
value below 16. -/
theorem hexDigitsAux_chars :
    ∀ (f n : Nat), ∀ c ∈ hexDigitsAux f n, ∃ m, m < 16 ∧ c = hexDigitChar m := by
  intro f
  induction f with
  | zero => intro n c hc; simp [hexDigitsAux] at hc
  | succ f ih =>
    intro n c hc
    by_cases h16 : n < 16
    · simp [hexDigitsAux, h16] at hc
      exact ⟨n, h16, hc⟩
    · simp only [hexDigitsAux, if_neg h16, List.mem_append, List.mem_singleton] at hc
      cases hc with
      | inl h => exact ih (n / 16) c h
      | inr h => exact ⟨n % 16, Nat.mod_lt n (by norm_num), h⟩

/-- Digit characters for values below 16 are lowercase hex digits. -/
theorem hexDigitChar_lower (m : Nat) (hm : m < 16) :
    isLowerHexDigit (hexDigitChar m) = true := by
  have hall : ∀ m2, m2 < 16 → isLowerHexDigit (hexDigitChar m2) = true := by decide
  exact hall m hm

/-- For a `u16` value, `{:04x}` prints exactly four characters. -/
theorem format04x_length (n : Nat) (hn : n < 65536) : (format04x n).length = 4 := by
  have hle : (hexDigits n).length ≤ 4 := by
    have h4 : n < 16 ^ (3 + 1) := by norm_num; omega
    simpa using hexDigitsAux_length_le (n + 1) n 3 h4
  have : (format04x n).length =
      (List.replicate (4 - (hexDigits n).length) '0' ++ hexDigits n).length := rfl
  rw [this]
  simp [List.length_append]
  omega

/-- Every character `{:04x}` prints is a lowercase hex digit. -/
theorem format04x_chars (n : Nat) :
    ∀ c ∈ (format04x n).data, isLowerHexDigit c = true := by
  intro c hc
  have hc2 : c ∈ List.replicate (4 - (hexDigits n).length) '0' ++ hexDigits n := hc
  rcases List.mem_append.mp hc2 with h | h
  · rw [List.eq_of_mem_replicate h]
    decide
  · obtain ⟨m, hm, rfl⟩ := hexDigitsAux_chars (n + 1) n c h
    exact hexDigitChar_lower m hm

/-- C1 counterexample: `"echo hello"` contains no Bash anchor and none of
the three Zsh anchors, yet on both supported shells
`inject_dynamic_completions` returns successfully with the script
unmodified instead of failing — refuting the claim that a missing anchor
is a hard `CompletionPatternMismatch` failure. -/
theorem c1_counterexample :
    NoBashAnchors ("echo hello").data ∧
    inject_dynamic_completions .Bash "probe-rs-cli" "echo hello" = .ok "echo hello" ∧
    NoZshAnchors "probe-rs-cli" ("echo hello").data ∧
    inject_dynamic_completions .Zsh "probe-rs-cli" "echo hello" = .ok "echo hello" :=
  ⟨by unfold NoBashAnchors; decide, rfl, by unfold NoZshAnchors; decide, rfl⟩

/-- C1 (amended): on both supported shells, when the baseline script
contains none of the expected anchors, injection still returns
successfully and the script is returned byte-for-byte unmodified: every
`replace_all` call is a no-op on zero matches and no
`CompletionPatternMismatch` failure exists.  (The Rust function's one
failure path, a regex failing to compile, is impossible for the fixed
Bash and Zsh placeholder patterns; the interpolated Zsh anchor regex is
modelled as the literal `_<name> "$@"`, which is exact for invocation
names free of regex metacharacters.) -/
theorem c1_thm (name : String) (script : String)
    (hb : NoBashAnchors script.data) (hz : NoZshAnchors name script.data) :
    inject_dynamic_completions .Bash name script = .ok script ∧
    inject_dynamic_completions .Zsh name script = .ok script := by
  constructor
  · have hchip : bashChipPass script.data = script.data :=
      replaceAllFuel_no_match bashChipFind bashChipRepl script.data.length script.data
        (fun t ht => (hb t ht).1)
    have hprobe : bashProbePass script.data = script.data :=
      replaceAllFuel_no_match bashProbeFind bashProbeRepl script.data.length script.data
        (fun t ht => (hb t ht).2)
    show (Except.ok ⟨inject_bash script.data⟩ : Except CliError String) = .ok script
    rw [show inject_bash script.data = script.data from by
      simp only [inject_bash, hchip, hprobe]]
  · have hz1 : replaceAllM (litFind (zshAnchor name))
        (zshInjectText.data ++ '\n' :: zshAnchor name) script.data = script.data :=
      replaceAllFuel_no_match (litFind (zshAnchor name)) _ script.data.length script.data
        (fun t ht => (hz t ht).1)
    have hz2 : replaceAllM (litFind zshProbeTag) zshProbeTagRepl script.data = script.data :=
      replaceAllFuel_no_match (litFind zshProbeTag) zshProbeTagRepl script.data.length script.data
        (fun t ht => (hz t ht).2.1)
    have hz3 : replaceAllM (litFind zshChipTag) zshChipTagRepl script.data = script.data :=
      replaceAllFuel_no_match (litFind zshChipTag) zshChipTagRepl script.data.length script.data
        (fun t ht => (hz t ht).2.2)
    show (Except.ok ⟨inject_zsh name script.data⟩ : Except CliError String) = .ok script
    rw [show inject_zsh name script.data = script.data from by
      simp only [inject_zsh, hz1, hz2, hz3]]

/-- C1 witness: a concrete anchor-free script on which the amended claim
holds for both shells. -/
theorem c1_witness :
    inject_dynamic_completions .Bash "probe-rs-cli" "ls -la" = .ok "ls -la" ∧
    inject_dynamic_completions .Zsh "probe-rs-cli" "ls -la" = .ok "ls -la" :=
  c1_thm "probe-rs-cli" "ls -la" (by unfold NoBashAnchors; decide)
    (by unfold NoZshAnchors; decide)

/-- C2 counterexample: for the claimed descriptor and empty filter text
the single emitted line is `0483\:3748B[STLink \[StLink\] B]` followed by
a newline — not the claimed `0483:3748B[STLink [StLink] B]`: the colon
between the ids and the brackets around the probe type are
backslash-escaped in the source's format string. -/
theorem c2_counterexample :
    list_probes [⟨0x483, 0x3748, none, "STLink", "StLink"⟩] pureSink "" =
      .ok ["0483\\:3748B[STLink \\[StLink\\] B]\n"] ∧
    ("0483\\:3748B[STLink \\[StLink\\] B]" : String) ≠ "0483:3748B[STLink [StLink] B]" ∧
    ("0483\\:3748B[STLink \\[StLink\\] B]\n" : String) ≠ "0483:3748B[STLink [StLink] B]\n" :=
  ⟨rfl, by decide, by decide⟩

/-- C2 (amended): for the descriptor with vendor id 0x0483, product id
0x3748, no serial, identifier "STLink", type "StLink" and the empty
filter text, `list_probes` writes exactly the line
`0483\:3748B[STLink \[StLink\] B]` (colon and inner brackets
backslash-escaped, no serial segment) and its terminating newline. -/
theorem c2_thm :
    list_probes [⟨0x483, 0x3748, none, "STLink", "StLink"⟩] pureSink "" =
      .ok [probe_line ⟨0x483, 0x3748, none, "STLink", "StLink"⟩ ++ "\n"] ∧
    probe_line ⟨0x483, 0x3748, none, "STLink", "StLink"⟩ =
      "0483\\:3748B[STLink \\[StLink\\] B]" :=
  ⟨rfl, rfl⟩

/-- C3: `list_chips` emits exactly the catalog's variant names that start
with the given text, in catalog-enumeration order (the filter of the
flattened family/variant enumeration, no sorting), each as one line; so
every emitted name starts with the text, and when no variant name starts
with it the output is empty. -/
theorem c3_thm (fams : List ChipFamily) (p : String) :
    list_chips (.ok fams) pureSink p =
      .ok (((catalogNames fams).filter (fun v => strStartsWith v p)).map (fun v => v ++ "\n")) ∧
    (∀ l ∈ ((catalogNames fams).filter (fun v => strStartsWith v p)).map (fun v => v ++ "\n"),
      ∃ n, strStartsWith n p = true ∧ n ∈ catalogNames fams ∧ l = n ++ "\n") ∧
    ((∀ n ∈ catalogNames fams, strStartsWith n p = false) →
      list_chips (.ok fams) pureSink p = .ok []) := by
  refine ⟨list_chips_pure fams p, ?_, ?_⟩
  · intro l hl
    obtain ⟨n, hn, rfl⟩ := List.mem_map.mp hl
    have hmem := List.mem_filter.mp hn
    exact ⟨n, hmem.2, hmem.1, rfl⟩
  · intro hnone
    rw [list_chips_pure fams p]
    have hfil : (catalogNames fams).filter (fun v => strStartsWith v p) = [] := by
      rw [List.filter_eq_nil_iff]
      intro a ha
      simp [hnone a ha]
    rw [hfil]
    rfl

/-- C3 witness: a concrete catalog and filter text instantiating the
theorem. -/
theorem c3_witness :
    list_chips (.ok [⟨["nRF52833", "STM32F401"]⟩, ⟨["nRF52840"]⟩]) pureSink "nRF" =
      .ok ((([ "nRF52833", "STM32F401", "nRF52840"].filter
        (fun v => strStartsWith v "nRF")).map (fun v => v ++ "\n"))) :=
  (c3_thm [⟨["nRF52833", "STM32F401"]⟩, ⟨["nRF52840"]⟩] "nRF").1

/-- C4: every line `list_probes` emits belongs to an enumerated probe
whose identifier starts with the given text (case-sensitive prefix, the
source's `starts_with`), and in every emitted line the vendor and product
ids are rendered by `{:04x}` as exactly four lowercase hexadecimal
digits. -/
theorem c4_thm (probes : List DebugProbeInfo) (p : String)
    (h16 : ∀ d ∈ probes, d.vendor_id < 65536 ∧ d.product_id < 65536) :
    list_probes probes pureSink p =
      .ok ((probes.filter (fun d => strStartsWith d.identifier p)).map
        (fun d => probe_line d ++ "\n")) ∧
    ∀ l ∈ (probes.filter (fun d => strStartsWith d.identifier p)).map
        (fun d => probe_line d ++ "\n"),
      ∃ d, d ∈ probes ∧ strStartsWith d.identifier p = true ∧
        l = probe_line d ++ "\n" ∧
        (format04x d.vendor_id).length = 4 ∧ (format04x d.product_id).length = 4 ∧
        (∀ c ∈ (format04x d.vendor_id).data, isLowerHexDigit c = true) ∧
        (∀ c ∈ (format04x d.product_id).data, isLowerHexDigit c = true) := by
  refine ⟨list_probes_pure probes p, ?_⟩
  intro l hl
  obtain ⟨d, hd, rfl⟩ := List.mem_map.mp hl
  have hmem := List.mem_filter.mp hd
  obtain ⟨hv, hp⟩ := h16 d hmem.1
  exact ⟨d, hmem.1, hmem.2, rfl, format04x_length _ hv, format04x_length _ hp,
    format04x_chars _, format04x_chars _⟩

/-- C4 witness: one concrete descriptor, `u16` bounds discharged by
evaluation. -/
theorem c4_witness :
    list_probes [⟨0x483, 0x3748, none, "STLink", "StLink"⟩] pureSink "ST" =
      .ok ((([(⟨0x483, 0x3748, none, "STLink", "StLink"⟩ : DebugProbeInfo)].filter
        (fun d => strStartsWith d.identifier "ST")).map (fun d => probe_line d ++ "\n"))) :=
  (c4_thm [⟨0x483, 0x3748, none, "STLink", "StLink"⟩] "ST" (by decide)).1

set_option maxRecDepth 8192 in
/-- C5 counterexample: a `GenerateScript` run with `argv[0]` equal to
`/usr/bin/foo` (so the recovered invocation name is `foo`) over a Bash
baseline containing the chip anchor succeeds, but the injected callback
invokes the fixed literal `probe-rs-cli complete chip-list` — the name
`foo` from the launch argument vector appears in no injected snippet. -/
theorem c5_counterexample :
    lastComponent "/usr/bin/foo" = "foo" ∧
    generate_completion ⟨"/usr/bin/foo", fun _ _ => c5Baseline, .ok [], []⟩
      .Bash .GenerateScript "" = .ok (c5Injected ++ "\n") ∧
    occursIn ("probe-rs-cli complete chip-list".data) c5Injected.data = true ∧
    occursIn ("foo complete".data) c5Injected.data = false :=
  ⟨rfl, rfl, by decide, by decide⟩

set_option maxRecDepth 100000 in
/-- C5 (amended): the injected callback snippets always invoke the fixed
literal name `probe-rs-cli`, independent of the argv[0]-derived name: the
whole Bash injection ignores the recovered name, and the Zsh snippet text
inserted by the injector shells out to `probe-rs-cli complete zsh
chip-list` / `probe-rs-cli complete zsh probe-list`.  The argv[0]-derived
name is used only as the bin name handed to the baseline generator and in
the Zsh anchor pattern. -/
theorem c5_thm (n1 n2 script : String) :
    inject_dynamic_completions .Bash n1 script = inject_dynamic_completions .Bash n2 script ∧
    occursIn ("probe-rs-cli complete zsh chip-list".data) zshInjectText.data = true ∧
    occursIn ("probe-rs-cli complete zsh probe-list".data) zshInjectText.data = true :=
  ⟨rfl, by decide, by decide⟩

/-- C6: the generate-then-inject pipeline is deterministic — for a
supported shell its output depends only on `argv[0]` and the baseline the
generator returns: two runs with those inputs equal produce byte-identical
output, even if the catalog, the attached probes and the typed text
differ between the runs. -/
theorem c6_thm (e1 e2 : Env) (shell : Shell) (i1 i2 : String)
    (hsh : supportedShell shell = true)
    (hargv : e1.argv0 = e2.argv0)
    (hgen : ∀ sh n, e1.gen sh n = e2.gen sh n) :
    generate_completion e1 shell .GenerateScript i1 =
      generate_completion e2 shell .GenerateScript i2 := by
  simp only [generate_completion, hsh, if_true]
  rw [hargv, hgen shell (lastComponent e2.argv0)]

/-- C6 witness: two runs over the same baseline and `argv[0]` but
different catalog, probe and input snapshots produce the same script. -/
theorem c6_witness :
    generate_completion ⟨"/bin/prs", fun _ _ => "CHIP: x", .ok [], []⟩
      .Zsh .GenerateScript "" =
    generate_completion ⟨"/bin/prs", fun _ _ => "CHIP: x", .error (),
      [⟨1, 1, none, "i", "t"⟩]⟩ .Zsh .GenerateScript "zzz" :=
  c6_thm ⟨"/bin/prs", fun _ _ => "CHIP: x", .ok [], []⟩
    ⟨"/bin/prs", fun _ _ => "CHIP: x", .error (), [⟨1, 1, none, "i", "t"⟩]⟩
    .Zsh "" "zzz" rfl rfl (fun _ _ => rfl)

/-- C7: on the Bash path the injector's output is `Framed` over its
input, pass by pass: the chip substitution relates the input script to
the intermediate script, and the probe substitution relates that to the
final output.  Each `rewrite` step of `Framed` replaces exactly the
`compgen -f` call of one matched anchor with the probe-rs-cli callback,
keeping capture groups 1 and 2 (`--chip)`/`--probe)`, the spaces, the
`COMPREPLY=($(` opener and the ` "${cur}"))` tail) unchanged, and every
byte outside the matched anchor regions is copied verbatim. -/
theorem c7_thm (name : String) (script : String) :
    inject_dynamic_completions .Bash name script =
      .ok ⟨bashProbePass (bashChipPass script.data)⟩ ∧
    Framed bashChipFind compgenF bashChipRepl script.data (bashChipPass script.data) ∧
    Framed bashProbeFind compgenF bashProbeRepl (bashChipPass script.data)
      (bashProbePass (bashChipPass script.data)) := by
  refine ⟨rfl, ?_, ?_⟩
  · exact framed_replaceAllFuel bashChipFind compgenF bashChipRepl bashChipFind_sound
      script.data.length script.data (le_refl _)
  · exact framed_replaceAllFuel bashProbeFind compgenF bashProbeRepl bashProbeFind_sound
      (bashChipPass script.data).length (bashChipPass script.data) (le_refl _)

/-- C8: a `GenerateScript` request for a shell outside {Bash, Zsh} fails
at once with the unsupported-shell error: nothing reaches the success
stream and the exit code is non-zero. -/
theorem c8_thm (env : Env) (kind : CompleteKind) (input : String) (shell : Shell)
    (h : supportedShell shell = false) :
    generate_completion env shell kind input = .error .UnsupportedShell ∧
    successOutput (generate_completion env shell kind input) = none ∧
    exitCode (generate_completion env shell kind input) ≠ 0 := by
  have hg : generate_completion env shell kind input = .error .UnsupportedShell := by
    simp [generate_completion, h]
  refine ⟨hg, ?_, ?_⟩
  · rw [hg]
    rfl
  · rw [hg]
    decide

/-- C8 witness: a Fish `GenerateScript` request against a concrete
environment. -/
theorem c8_witness :
    generate_completion ⟨"probe-rs", fun _ _ => "", .ok [], []⟩ .Fish .GenerateScript "" =
      .error .UnsupportedShell ∧
    successOutput (generate_completion ⟨"probe-rs", fun _ _ => "", .ok [], []⟩
      .Fish .GenerateScript "") = none ∧
    exitCode (generate_completion ⟨"probe-rs", fun _ _ => "", .ok [], []⟩
      .Fish .GenerateScript "") ≠ 0 :=
  c8_thm ⟨"probe-rs", fun _ _ => "", .ok [], []⟩ .GenerateScript "" .Fish rfl

/-- C9 counterexample: an invocation of `list_probes` whose output sink
rejects the first write neither runs to completion nor fails with
`ProbeEnumerationError` — it fails with the sink's write error, the only
failure source the function has (enumeration is passed in as a plain
list, with no error channel). -/
theorem c9_counterexample :
    list_probes [⟨0x483, 0x3748, none, "STLink", "StLink"⟩] ⟨fun _ => false⟩ "" =
      .error .IOError ∧
    OperationError.IOError ≠ OperationError.ProbeEnumerationError :=
  ⟨rfl, by decide⟩

/-- C9 (amended): `list_probes` never fails with `ProbeEnumerationError`
(the enumerated descriptor list it consumes has no failure case, so no
such error can arise), and with the in-memory sink the dispatcher uses it
always runs to completion over the enumerated descriptors. -/
theorem c9_thm (probes : List DebugProbeInfo) (s : Sink) (p : String) :
    list_probes probes s p ≠ .error .ProbeEnumerationError ∧
    ∃ lines, list_probes probes pureSink p = .ok lines := by
  constructor
  · intro h
    unfold list_probes at h
    cases h3 : list_probes_loop s p 0 probes with
    | ok pair =>
      rw [h3] at h
      simp [Except.map] at h
    | error e =>
      rw [h3] at h
      simp only [Except.map, Except.error.injEq] at h
      have he := list_probes_loop_error s p probes 0 e h3
      rw [h] at he
      cases he
  · exact ⟨_, list_probes_pure probes p⟩

/-- C10: the unsupported-shell rejection happens before any work for all
three request kinds alike: for a shell outside {Bash, Zsh} the result is
the unsupported-shell error and is independent of the request kind, the
typed text, the chip catalog, the probe snapshot and `argv[0]` — no
catalog read, no probe enumeration and no candidate output can influence
it. -/
theorem c10_thm (e1 e2 : Env) (shell : Shell) (k1 k2 : CompleteKind) (i1 i2 : String)
    (h : supportedShell shell = false) :
    generate_completion e1 shell k1 i1 = .error .UnsupportedShell ∧
    generate_completion e1 shell k1 i1 = generate_completion e2 shell k2 i2 := by
  have hg1 : generate_completion e1 shell k1 i1 = .error .UnsupportedShell := by
    simp [generate_completion, h]
  have hg2 : generate_completion e2 shell k2 i2 = .error .UnsupportedShell := by
    simp [generate_completion, h]
  exact ⟨hg1, by rw [hg1, hg2]⟩

/-- C10 witness: a PowerShell request rejected identically for two
different kinds, environments and inputs. -/
theorem c10_witness :
    generate_completion ⟨"a", fun _ _ => "x", .ok [], []⟩ .PowerShell .ChipList "q" =
      .error .UnsupportedShell ∧
    generate_completion ⟨"a", fun _ _ => "x", .ok [], []⟩ .PowerShell .ChipList "q" =
      generate_completion ⟨"b", fun _ _ => "y", .error (), [⟨1, 2, none, "z", "t"⟩]⟩
        .PowerShell .ProbeList "r" :=
  c10_thm ⟨"a", fun _ _ => "x", .ok [], []⟩
    ⟨"b", fun _ _ => "y", .error (), [⟨1, 2, none, "z", "t"⟩]⟩
    .PowerShell .ChipList .ProbeList "q" "r" rfl
